import Mathlib

/-!
# The sorted-set registry of nutsdb (`sorted_set.go`)

A shallow embedding of the `SortedSet` registry: a Go map from sorted-set names to
skip-list indexes together with the `Z*` methods that translate registry-level errors
and forward every call to the addressed index.

The skip list itself (`SkipList`, `SkipListNode`, `GetByScoreRangeOptions`, `getFnv32`)
lives in other files of the repository.  The registry methods are therefore embedded
over an arbitrary implementation of the index interface (`SkipListOps`), and a second,
concrete index (`SkipList`, `specOps`) is modelled from the specification for the
statements that depend on what the index does.
-/

namespace Nutsdb

/-! ## Basic types -/

/-- The error values of the package: the three sentinels declared in `sorted_set.go`, and
`foreign` for any error value produced elsewhere and merely passed on. A Go `error`
result is an `Option Error`, `none` being `nil`. -/
inductive Error where
  | ErrSortedSetNotFound
  | ErrSortedSetMemberNotExist
  | ErrSortedSetIsEmpty
  | foreign (code : Nat)
  deriving DecidableEq, Repr

/-- A `*DB`: an opaque handle, only stored and handed to `newSkipList`. -/
abbrev DB := Nat

/-- A `*Record`: `none` is the nil pointer, `some a` the record at address `a`. The registry
only stores, returns and uses these pointers as map keys. -/
abbrev RecordPtr := Option Nat

/-- The type `SCORE` (`type SCORE float64`). The registry never does arithmetic on a score:
it stores, returns and orders them, and its zero value is `0`; scores are represented
by integer keys. The conversion `float64(score)` is the identity. -/
abbrev SCORE := Int

/-- A `[]byte` member value. -/
abbrev Bytes := List (Fin 256)

/-- Modelled from the spec: the declaration of `SkipListNode` is not among the sources. A node
carries a score, the member bytes, the 32-bit digest of the bytes and the record
handle; the link and span arrays are the representation of the order, which the
embedding keeps as the order of a list. -/
structure SkipListNode where
  hash : Nat
  value : Bytes
  score : SCORE
  record : RecordPtr
  deriving DecidableEq, Repr

/-- Modelled from the spec: the declaration of `GetByScoreRangeOptions` is not among the
sources. Recognised options: exclusive flags for each bound, an optional limit, an
offset (default 0) and a direction flag (default forward). -/
structure GetByScoreRangeOptions where
  exclusiveStart : Bool
  exclusiveEnd : Bool
  limit : Option Int
  offset : Int
  reverse : Bool
  deriving DecidableEq, Repr

/-- A Go map value as a finite function; `none` at a key means the key is absent. -/
abbrev GoMap (K V : Type) := K → Option V

/-- The map `make(map[K]V)`. -/
def GoMap.empty {K V : Type} : GoMap K V := fun _ => none

/-- The assignment `m[k] = v`. -/
def GoMap.set {K V : Type} [DecidableEq K] (m : GoMap K V) (k : K) (v : V) : GoMap K V :=
  fun x => if x = k then some v else m x

/-! ## The index interface used by the registry -/

/-- The fields and methods of `*SkipList` (and the helper `getFnv32`) that `sorted_set.go`
uses. Their code is not among the sources, so the registry is embedded over any
implementation of them. `SL` is the state of one index; a method that may mutate the
index returns the new state, a method that only reads is a function of the state. -/
structure SkipListOps (SL : Type) where
  /-- The constructor `newSkipList(db)`. -/
  newSkipList : DB → SL
  /-- The method `Put(score, value, record) error`. -/
  Put : SL → SCORE → Bytes → RecordPtr → SL × Option Error
  /-- The field `dict`, a `map[uint32]*SkipListNode`, as the sequence of its entries in
  iteration order. -/
  dict : SL → List (Nat × SkipListNode)
  /-- The field `length` (an `int64`). -/
  length : SL → Int
  /-- The method `GetByScoreRange(start, end, opts)`; `opts` is a pointer and may be nil. -/
  GetByScoreRange : SL → SCORE → SCORE → Option GetByScoreRangeOptions → List SkipListNode
  /-- The method `GetByRankRange(start, end, remove)`. -/
  GetByRankRange : SL → Int → Int → Bool → SL × List SkipListNode
  /-- The method `PeekMax()`; `none` is a nil node. -/
  PeekMax : SL → Option SkipListNode
  /-- The method `PopMax()`. -/
  PopMax : SL → SL × Option SkipListNode
  /-- The method `PeekMin()`. -/
  PeekMin : SL → Option SkipListNode
  /-- The method `PopMin()`. -/
  PopMin : SL → SL × Option SkipListNode
  /-- The method `Remove(hash)`. -/
  Remove : SL → Nat → SL × Option SkipListNode
  /-- The method `FindRank(hash)`. -/
  FindRank : SL → Nat → Int
  /-- The method `FindRevRank(hash)`. -/
  FindRevRank : SL → Nat → Int
  /-- The method `GetByValue(value)`. -/
  GetByValue : SL → Bytes → Option SkipListNode
  /-- The helper `getFnv32(value) (uint32, error)`. -/
  getFnv32 : Bytes → Nat × Option Error

/-! ## The registry -/

/-- The struct `SortedSet`: the database handle and the map `M` from names to indexes. The
map holds pointers to indexes; since `ZAdd` is the only writer of `M` and binds every
name to a fresh index, a name is modelled as bound to the state of its index. -/
structure SortedSet (SL : Type) where
  db : DB
  M : GoMap String SL

variable {SL : Type}

/-- The registry in which `key` is bound to the index state `sl`: the assignment
`z.M[key] = ...`, and the effect on `z` of a mutation of the index bound to `key`. -/
def SortedSet.store (z : SortedSet SL) (key : String) (sl : SL) : SortedSet SL :=
  { z with M := z.M.set key sl }

/-- The function `NewSortedSet`. -/
def NewSortedSet (db : DB) : SortedSet SL :=
  { db := db, M := GoMap.empty }

/-- The method `ZAdd`. -/
def ZAdd (ops : SkipListOps SL) (z : SortedSet SL) (key : String) (score : SCORE)
    (value : Bytes) (record : RecordPtr) : SortedSet SL × Option Error :=
  let created : SortedSet SL × SL :=
    match z.M key with
    | some sortedSet => (z, sortedSet)
    | none => (z.store key (ops.newSkipList z.db), ops.newSkipList z.db)
  let r := ops.Put created.2 score value record
  (created.1.store key r.1, r.2)

/-- The loop `for _, node := range nodes { members[node.record] = node.score }`. -/
def collectMembers (nodes : List (Nat × SkipListNode)) : GoMap RecordPtr SCORE :=
  nodes.foldl (fun members p => members.set p.2.record p.2.score) GoMap.empty

/-- The method `ZMembers`; a nil map is `none`. -/
def ZMembers (ops : SkipListOps SL) (z : SortedSet SL) (key : String) :
    Option (GoMap RecordPtr SCORE) × Option Error :=
  match z.M key with
  | none => (none, some Error.ErrSortedSetNotFound)
  | some sortedSet => (some (collectMembers (ops.dict sortedSet)), none)

/-- The method `ZCard`. -/
def ZCard (ops : SkipListOps SL) (z : SortedSet SL) (key : String) : Int × Option Error :=
  match z.M key with
  | some sortedSet => (ops.length sortedSet, none)
  | none => (0, some Error.ErrSortedSetNotFound)

/-- The method `ZCount`. -/
def ZCount (ops : SkipListOps SL) (z : SortedSet SL) (key : String) (start stop : SCORE)
    (opts : Option GetByScoreRangeOptions) : Int × Option Error :=
  match z.M key with
  | some sortedSet => (((ops.GetByScoreRange sortedSet start stop opts).length : Nat), none)
  | none => (0, some Error.ErrSortedSetNotFound)

/-- The common tail of the four peek/pop methods: a non-nil node yields its record and
score, a nil node yields `ErrSortedSetIsEmpty`. -/
def nodeResult (node : Option SkipListNode) : RecordPtr × SCORE × Option Error :=
  match node with
  | some n => (n.record, n.score, none)
  | none => (none, 0, some Error.ErrSortedSetIsEmpty)

/-- The method `ZPeekMax`. -/
def ZPeekMax (ops : SkipListOps SL) (z : SortedSet SL) (key : String) :
    RecordPtr × SCORE × Option Error :=
  match z.M key with
  | some sortedSet => nodeResult (ops.PeekMax sortedSet)
  | none => (none, 0, some Error.ErrSortedSetNotFound)

/-- The method `ZPopMax`. -/
def ZPopMax (ops : SkipListOps SL) (z : SortedSet SL) (key : String) :
    SortedSet SL × RecordPtr × SCORE × Option Error :=
  match z.M key with
  | some sortedSet =>
    let r := ops.PopMax sortedSet
    (z.store key r.1, nodeResult r.2)
  | none => (z, none, 0, some Error.ErrSortedSetNotFound)

/-- The method `ZPeekMin`. -/
def ZPeekMin (ops : SkipListOps SL) (z : SortedSet SL) (key : String) :
    RecordPtr × SCORE × Option Error :=
  match z.M key with
  | some sortedSet => nodeResult (ops.PeekMin sortedSet)
  | none => (none, 0, some Error.ErrSortedSetNotFound)

/-- The method `ZPopMin`. -/
def ZPopMin (ops : SkipListOps SL) (z : SortedSet SL) (key : String) :
    SortedSet SL × RecordPtr × SCORE × Option Error :=
  match z.M key with
  | some sortedSet =>
    let r := ops.PopMin sortedSet
    (z.store key r.1, nodeResult r.2)
  | none => (z, none, 0, some Error.ErrSortedSetNotFound)

/-- The loop `for i, node := range nodes { records[i] = node.record; scores[i] = ... }`,
started at index `i` on the remaining nodes. -/
def fillRange : Nat → List SkipListNode → List RecordPtr × List SCORE →
    List RecordPtr × List SCORE
  | _, [], acc => acc
  | i, node :: rest, acc => fillRange (i + 1) rest (acc.1.set i node.record, acc.2.set i node.score)

/-- The two slices built from a node sequence: `make` of the right length (filled with zero
values), then the loop. -/
def rangeResult (nodes : List SkipListNode) : List RecordPtr × List SCORE :=
  fillRange 0 nodes (List.replicate nodes.length none, List.replicate nodes.length 0)

/-- The method `ZRangeByScore`; a nil slice is `none`. -/
def ZRangeByScore (ops : SkipListOps SL) (z : SortedSet SL) (key : String) (start stop : SCORE)
    (opts : Option GetByScoreRangeOptions) :
    Option (List RecordPtr) × Option (List SCORE) × Option Error :=
  match z.M key with
  | some sortedSet =>
    let nodes := ops.GetByScoreRange sortedSet start stop opts
    (some (rangeResult nodes).1, some (rangeResult nodes).2, none)
  | none => (none, none, some Error.ErrSortedSetNotFound)

/-- The method `ZRangeByRank`. -/
def ZRangeByRank (ops : SkipListOps SL) (z : SortedSet SL) (key : String) (start stop : Int) :
    SortedSet SL × Option (List RecordPtr) × Option (List SCORE) × Option Error :=
  match z.M key with
  | some sortedSet =>
    let r := ops.GetByRankRange sortedSet start stop false
    (z.store key r.1, some (rangeResult r.2).1, some (rangeResult r.2).2, none)
  | none => (z, none, none, some Error.ErrSortedSetNotFound)

/-- The method `ZRem`. -/
def ZRem (ops : SkipListOps SL) (z : SortedSet SL) (key : String) (value : Bytes) :
    SortedSet SL × RecordPtr × Option Error :=
  match z.M key with
  | some sortedSet =>
    match (ops.getFnv32 value).2 with
    | some err => (z, none, some err)
    | none =>
      let r := ops.Remove sortedSet (ops.getFnv32 value).1
      match r.2 with
      | some node => (z.store key r.1, node.record, none)
      | none => (z.store key r.1, none, some Error.ErrSortedSetMemberNotExist)
  | none => (z, none, some Error.ErrSortedSetNotFound)

/-- The method `ZRemRangeByRank`. -/
def ZRemRangeByRank (ops : SkipListOps SL) (z : SortedSet SL) (key : String) (start stop : Int) :
    SortedSet SL × Option Error :=
  match z.M key with
  | some sortedSet => (z.store key (ops.GetByRankRange sortedSet start stop true).1, none)
  | none => (z, some Error.ErrSortedSetNotFound)

/-- The method `getZRemRangeByRankNodes`. -/
def getZRemRangeByRankNodes (ops : SkipListOps SL) (z : SortedSet SL) (key : String)
    (start stop : Int) : SortedSet SL × List SkipListNode × Option Error :=
  match z.M key with
  | some sortedSet =>
    let r := ops.GetByRankRange sortedSet start stop false
    (z.store key r.1, r.2, none)
  | none => (z, [], none)

/-- The common tail of `ZRank` and `ZRevRank`: rank 0 becomes `ErrSortedSetMemberNotExist`. -/
def rankResult (rank : Int) : Int × Option Error :=
  if rank = 0 then (0, some Error.ErrSortedSetMemberNotExist) else (rank, none)

/-- The method `ZRank`. -/
def ZRank (ops : SkipListOps SL) (z : SortedSet SL) (key : String) (value : Bytes) :
    Int × Option Error :=
  match z.M key with
  | some sortedSet =>
    match (ops.getFnv32 value).2 with
    | some err => (0, some err)
    | none => rankResult (ops.FindRank sortedSet (ops.getFnv32 value).1)
  | none => (0, some Error.ErrSortedSetNotFound)

/-- The method `ZRevRank`. -/
def ZRevRank (ops : SkipListOps SL) (z : SortedSet SL) (key : String) (value : Bytes) :
    Int × Option Error :=
  match z.M key with
  | some sortedSet =>
    match (ops.getFnv32 value).2 with
    | some err => (0, some err)
    | none => rankResult (ops.FindRevRank sortedSet (ops.getFnv32 value).1)
  | none => (0, some Error.ErrSortedSetNotFound)

/-- The method `ZScore`. The source calls `GetByValue` a second time to read the score; the
lookup only reads the index, so the second call yields the node of the first. -/
def ZScore (ops : SkipListOps SL) (z : SortedSet SL) (key : String) (value : Bytes) :
    SCORE × Option Error :=
  match z.M key with
  | some sortedSet =>
    match ops.GetByValue sortedSet value with
    | some node => (node.score, none)
    | none => (0, some Error.ErrSortedSetMemberNotExist)
  | none => (0, some Error.ErrSortedSetNotFound)

/-- The method `ZExist`. -/
def ZExist (ops : SkipListOps SL) (z : SortedSet SL) (key : String) (value : Bytes) :
    Bool × Option Error :=
  match z.M key with
  | some sortedSet =>
    match (ops.getFnv32 value).2 with
    | some err => (false, some err)
    | none => (((ops.dict sortedSet).lookup (ops.getFnv32 value).1).isSome, none)
  | none => (false, some Error.ErrSortedSetNotFound)

/-! ## Operations as data -/

/-- A call of one registry method with its arguments. -/
inductive Op where
  | ZAdd (key : String) (score : SCORE) (value : Bytes) (record : RecordPtr)
  | ZMembers (key : String)
  | ZCard (key : String)
  | ZCount (key : String) (start stop : SCORE) (opts : Option GetByScoreRangeOptions)
  | ZPeekMax (key : String)
  | ZPopMax (key : String)
  | ZPeekMin (key : String)
  | ZPopMin (key : String)
  | ZRangeByScore (key : String) (start stop : SCORE) (opts : Option GetByScoreRangeOptions)
  | ZRangeByRank (key : String) (start stop : Int)
  | ZRem (key : String) (value : Bytes)
  | ZRemRangeByRank (key : String) (start stop : Int)
  | getZRemRangeByRankNodes (key : String) (start stop : Int)
  | ZRank (key : String) (value : Bytes)
  | ZRevRank (key : String) (value : Bytes)
  | ZScore (key : String) (value : Bytes)
  | ZExist (key : String) (value : Bytes)
  deriving DecidableEq, Repr

/-- The sorted-set name a call addresses. -/
def Op.key : Op → String
  | .ZAdd key _ _ _ => key
  | .ZMembers key => key
  | .ZCard key => key
  | .ZCount key _ _ _ => key
  | .ZPeekMax key => key
  | .ZPopMax key => key
  | .ZPeekMin key => key
  | .ZPopMin key => key
  | .ZRangeByScore key _ _ _ => key
  | .ZRangeByRank key _ _ => key
  | .ZRem key _ => key
  | .ZRemRangeByRank key _ _ => key
  | .getZRemRangeByRankNodes key _ _ => key
  | .ZRank key _ => key
  | .ZRevRank key _ => key
  | .ZScore key _ => key
  | .ZExist key _ => key

/-- Whether a call is a `ZAdd` addressed at `key`. -/
def Op.addsTo (key : String) : Op → Bool
  | .ZAdd k _ _ _ => k == key
  | _ => false

/-- The values a call returns, by shape of the result list. -/
inductive Ret where
  | error (err : Option Error)
  | members (m : Option (GoMap RecordPtr SCORE)) (err : Option Error)
  | int (n : Int) (err : Option Error)
  | node (record : RecordPtr) (score : SCORE) (err : Option Error)
  | range (records : Option (List RecordPtr)) (scores : Option (List SCORE)) (err : Option Error)
  | record (record : RecordPtr) (err : Option Error)
  | nodes (ns : List SkipListNode) (err : Option Error)
  | score (score : SCORE) (err : Option Error)
  | bool (b : Bool) (err : Option Error)

/-- The `error` result of a call. -/
def Ret.err : Ret → Option Error
  | .error err => err
  | .members _ err => err
  | .int _ err => err
  | .node _ _ err => err
  | .range _ _ err => err
  | .record _ err => err
  | .nodes _ err => err
  | .score _ err => err
  | .bool _ err => err

/-- Run one call: the registry afterwards and the values returned. -/
def exec (ops : SkipListOps SL) (z : SortedSet SL) : Op → SortedSet SL × Ret
  | .ZAdd key score value record =>
    let r := ZAdd ops z key score value record
    (r.1, .error r.2)
  | .ZMembers key =>
    let r := ZMembers ops z key
    (z, .members r.1 r.2)
  | .ZCard key =>
    let r := ZCard ops z key
    (z, .int r.1 r.2)
  | .ZCount key start stop opts =>
    let r := ZCount ops z key start stop opts
    (z, .int r.1 r.2)
  | .ZPeekMax key =>
    let r := ZPeekMax ops z key
    (z, .node r.1 r.2.1 r.2.2)
  | .ZPopMax key =>
    let r := ZPopMax ops z key
    (r.1, .node r.2.1 r.2.2.1 r.2.2.2)
  | .ZPeekMin key =>
    let r := ZPeekMin ops z key
    (z, .node r.1 r.2.1 r.2.2)
  | .ZPopMin key =>
    let r := ZPopMin ops z key
    (r.1, .node r.2.1 r.2.2.1 r.2.2.2)
  | .ZRangeByScore key start stop opts =>
    let r := ZRangeByScore ops z key start stop opts
    (z, .range r.1 r.2.1 r.2.2)
  | .ZRangeByRank key start stop =>
    let r := ZRangeByRank ops z key start stop
    (r.1, .range r.2.1 r.2.2.1 r.2.2.2)
  | .ZRem key value =>
    let r := ZRem ops z key value
    (r.1, .record r.2.1 r.2.2)
  | .ZRemRangeByRank key start stop =>
    let r := ZRemRangeByRank ops z key start stop
    (r.1, .error r.2)
  | .getZRemRangeByRankNodes key start stop =>
    let r := getZRemRangeByRankNodes ops z key start stop
    (r.1, .nodes r.2.1 r.2.2)
  | .ZRank key value =>
    let r := ZRank ops z key value
    (z, .int r.1 r.2)
  | .ZRevRank key value =>
    let r := ZRevRank ops z key value
    (z, .int r.1 r.2)
  | .ZScore key value =>
    let r := ZScore ops z key value
    (z, .score r.1 r.2)
  | .ZExist key value =>
    let r := ZExist ops z key value
    (z, .bool r.1 r.2)

/-- Run a sequence of calls from left to right; the registry afterwards. -/
def run (ops : SkipListOps SL) (z : SortedSet SL) (calls : List Op) : SortedSet SL :=
  calls.foldl (fun cur op => (exec ops cur op).1) z

/-! ## The index modelled from the specification -/

/-- Modelled from the spec: the ordered index `SkipList`, whose code is not among the sources.
It owns the live nodes in score order (ties broken by digest), the digest-to-node
lookup table and the live count. -/
structure SkipList where
  nodes : List SkipListNode
  dict : List (Nat × SkipListNode)
  length : Int
  deriving DecidableEq, Repr

namespace SkipList

/-- Modelled from the spec: the total order of the index, ascending by score and, for equal
scores, by ascending digest. -/
def before (a b : SkipListNode) : Bool :=
  decide (a.score < b.score) || (decide (a.score = b.score) && decide (a.hash < b.hash))

/-- Modelled from the spec: link a node at the position its (score, digest) determines. -/
def insertOrdered (n : SkipListNode) : List SkipListNode → List SkipListNode
  | [] => [n]
  | m :: rest => if before m n then m :: insertOrdered n rest else n :: m :: rest

/-- Modelled from the spec: insertion of a node whose digest is absent: link it, enter it in
the lookup table, increment the count. -/
def insertNode (s : SkipList) (n : SkipListNode) : SkipList :=
  { nodes := insertOrdered n s.nodes, dict := (n.hash, n) :: s.dict, length := s.length + 1 }

/-- Modelled from the spec: `Delete(digest)`: if the digest is absent, report not found and
change nothing; otherwise unlink the node, remove the digest entry, decrement the
count and return the node. -/
def delete (s : SkipList) (hash : Nat) : SkipList × Option SkipListNode :=
  match s.dict.lookup hash with
  | none => (s, none)
  | some n =>
    ({ nodes := s.nodes.erase n, dict := s.dict.filter (fun p => p.1 != hash),
       length := s.length - 1 }, some n)

/-- Modelled from the spec: `Insert(score, memberBytes, record)`: a present digest has its
node removed first; then a new node is inserted. -/
def put (fnv : Bytes → Nat × Option Error) (s : SkipList) (score : SCORE) (value : Bytes)
    (record : RecordPtr) : SkipList :=
  (s.delete (fnv value).1).1.insertNode
    { hash := (fnv value).1, value := value, score := score, record := record }

/-- Modelled from the spec: `FindByDigest`, a direct lookup. -/
def findByDigest (s : SkipList) (hash : Nat) : Option SkipListNode :=
  s.dict.lookup hash

/-- Modelled from the spec: `Rank(digest, reverse)`: 0 for an absent digest, otherwise one more
than the number of nodes ordered before the target, or `count + 1` minus that when
reversed. -/
def rank (s : SkipList) (hash : Nat) (reverse : Bool) : Int :=
  match s.dict.lookup hash with
  | none => 0
  | some n =>
    let ascending : Int := ((s.nodes.takeWhile (fun m => before m n)).length : Nat) + 1
    if reverse then s.length + 1 - ascending else ascending

/-- Modelled from the spec: whether a score satisfies the lower bound. -/
def aboveStart (start : SCORE) (exclusive : Bool) (n : SkipListNode) : Bool :=
  if exclusive then decide (start < n.score) else decide (start ≤ n.score)

/-- Modelled from the spec: whether a score satisfies the upper bound. -/
def belowEnd (stop : SCORE) (exclusive : Bool) (n : SkipListNode) : Bool :=
  if exclusive then decide (n.score < stop) else decide (n.score ≤ stop)

/-- Modelled from the spec: `RangeByScore(lo, hi, opts)`: start at the first node satisfying
the lower bound and go forward until the upper bound is violated (when reversed,
from the upper bound backward), skip `offset` qualifying nodes and stop at the limit.
A nil `opts` means inclusive bounds, no limit, no offset, forward. -/
def getByScoreRange (s : SkipList) (start stop : SCORE) (opts : Option GetByScoreRangeOptions) :
    List SkipListNode :=
  let o : GetByScoreRangeOptions := opts.getD
    { exclusiveStart := false, exclusiveEnd := false, limit := none, offset := 0, reverse := false }
  let scan :=
    if o.reverse then
      (s.nodes.reverse.dropWhile (fun n => !belowEnd stop o.exclusiveEnd n)).takeWhile
        (aboveStart start o.exclusiveStart)
    else
      (s.nodes.dropWhile (fun n => !aboveStart start o.exclusiveStart n)).takeWhile
        (belowEnd stop o.exclusiveEnd)
  let skipped := scan.drop o.offset.toNat
  match o.limit with
  | none => skipped
  | some l => skipped.take l.toNat

/-- Modelled from the spec: a negative rank counts from the tail, -1 being the last element. -/
def resolveRank (count r : Int) : Int :=
  if r < 0 then count + 1 + r else r

/-- Modelled from the spec: clamp a rank into `[1, count]`. -/
def clampRank (count r : Int) : Int :=
  max 1 (min count r)

/-- Modelled from the spec: `RangeByRank(startRank, endRank, remove)`: resolve negative ranks,
clamp both ends, collect the nodes of the resolved range (none if it is empty) and,
when `remove` is set, delete every collected node afterwards. -/
def getByRankRange (s : SkipList) (start stop : Int) (remove : Bool) :
    SkipList × List SkipListNode :=
  let a := clampRank s.length (resolveRank s.length start)
  let b := clampRank s.length (resolveRank s.length stop)
  let hit := if b < a then [] else (s.nodes.drop (a - 1).toNat).take (b - a + 1).toNat
  if remove then (hit.foldl (fun t n => (t.delete n.hash).1) s, hit) else (s, hit)

/-- Modelled from the spec: `PeekMin`, the first node in score order. -/
def peekMin (s : SkipList) : Option SkipListNode :=
  s.nodes.head?

/-- Modelled from the spec: `PeekMax`, the last node in score order. -/
def peekMax (s : SkipList) : Option SkipListNode :=
  s.nodes.getLast?

/-- Modelled from the spec: `PopMin`: as `PeekMin`, then delete the returned node. -/
def popMin (s : SkipList) : SkipList × Option SkipListNode :=
  match s.peekMin with
  | none => (s, none)
  | some n => ((s.delete n.hash).1, some n)

/-- Modelled from the spec: `PopMax`: as `PeekMax`, then delete the returned node. -/
def popMax (s : SkipList) : SkipList × Option SkipListNode :=
  match s.peekMax with
  | none => (s, none)
  | some n => ((s.delete n.hash).1, some n)

/-- The consistency of the three parts of an index: the count is the number of linked nodes,
and every entry of the lookup table is a linked node filed under its own digest. -/
def Inv (s : SkipList) : Prop :=
  s.length = (s.nodes.length : Nat) ∧
    ∀ h n, s.dict.lookup h = some n → n ∈ s.nodes ∧ n.hash = h

end SkipList

/-- Modelled from the spec: the index interface implemented by the modelled `SkipList`, over a
digest function `fnv`. `Insert` returns nothing, so `Put` reports no error. -/
def specOps (fnv : Bytes → Nat × Option Error) : SkipListOps SkipList where
  newSkipList := fun _ => { nodes := [], dict := [], length := 0 }
  Put := fun s score value record => (s.put fnv score value record, none)
  dict := fun s => s.dict
  length := fun s => s.length
  GetByScoreRange := fun s start stop opts => s.getByScoreRange start stop opts
  GetByRankRange := fun s start stop remove => s.getByRankRange start stop remove
  PeekMax := fun s => s.peekMax
  PopMax := fun s => s.popMax
  PeekMin := fun s => s.peekMin
  PopMin := fun s => s.popMin
  Remove := fun s hash => s.delete hash
  FindRank := fun s hash => s.rank hash false
  FindRevRank := fun s hash => s.rank hash true
  GetByValue := fun s value => s.findByDigest (fnv value).1
  getFnv32 := fnv

/-- Modelled from the spec: the digest utility, a pure function of the bytes that yields a
32-bit value; the 32-bit FNV-1a hash, which never fails. -/
def getFnv32 (value : Bytes) : Nat × Option Error :=
  (value.foldl (fun h b => ((h ^^^ b.val) * 16777619) % 2 ^ 32) 2166136261, none)

/-- A registry built by three insertions into the set `"s"`: members `a`, `b`, `c` with
scores 5, 3, 3 and records 1, 2, 3. -/
def demo : SortedSet SkipList :=
  run (specOps getFnv32) (NewSortedSet 0)
    [.ZAdd "s" 5 [97] (some 1), .ZAdd "s" 3 [98] (some 2), .ZAdd "s" 3 [99] (some 3)]

/-- The index bound to `"s"` in `demo`: `c` and `b` (score 3, in digest order), then `a`. -/
def demoIndex : SkipList :=
  { nodes := [⟨3859557458, [99], 3, some 3⟩, ⟨3876335077, [98], 3, some 2⟩,
      ⟨3826002220, [97], 5, some 1⟩],
    dict := [(3859557458, ⟨3859557458, [99], 3, some 3⟩),
      (3876335077, ⟨3876335077, [98], 3, some 2⟩),
      (3826002220, ⟨3826002220, [97], 5, some 1⟩)],
    length := 3 }

/-- A registry in which two members of the set `"s"`, with scores 1 and 2, were inserted
with the same record handle 7. -/
def shared : SortedSet SkipList :=
  run (specOps getFnv32) (NewSortedSet 0)
    [.ZAdd "s" 1 [97] (some 7), .ZAdd "s" 2 [98] (some 7)]

/-- The index bound to `"s"` in `shared`. -/
def sharedIndex : SkipList :=
  { nodes := [⟨3826002220, [97], 1, some 7⟩, ⟨3876335077, [98], 2, some 7⟩],
    dict := [(3876335077, ⟨3876335077, [98], 2, some 7⟩),
      (3826002220, ⟨3826002220, [97], 1, some 7⟩)],
    length := 2 }

/-- A registry is reachable when it results from a finite sequence of registry calls on the
registry made by `NewSortedSet`, over the modelled index. -/
def Reachable (fnv : Bytes → Nat × Option Error) (z : SortedSet SkipList) : Prop :=
  ∃ (db : DB) (calls : List Op), z = run (specOps fnv) (NewSortedSet db) calls

/-- Every index of the registry is consistent. -/
def SortedSet.Inv (z : SortedSet SkipList) : Prop :=
  ∀ (k : String) (sl : SkipList), z.M k = some sl → sl.Inv

/-! ## Basic facts about the registry map -/

theorem GoMap.set_same {K V : Type} [DecidableEq K] (m : GoMap K V) (k : K) (v : V) :
    m.set k v k = some v := by
  simp [GoMap.set]

theorem GoMap.set_other {K V : Type} [DecidableEq K] (m : GoMap K V) (k x : K) (v : V)
    (h : x ≠ k) : m.set k v x = m x := by
  simp [GoMap.set, h]

theorem SortedSet.store_M_same (z : SortedSet SL) (key : String) (sl : SL) :
    (z.store key sl).M key = some sl := by
  simp [SortedSet.store, GoMap.set]

theorem SortedSet.store_M_other (z : SortedSet SL) (key k : String) (sl : SL) (h : k ≠ key) :
    (z.store key sl).M k = z.M k := by
  simp [SortedSet.store, GoMap.set, h]

theorem SortedSet.store_db (z : SortedSet SL) (key : String) (sl : SL) :
    (z.store key sl).db = z.db := rfl

theorem SortedSet.store_self (z : SortedSet SL) (key : String) (sl : SL)
    (h : z.M key = some sl) : z.store key sl = z := by
  cases z with
  | mk db M =>
    simp only [SortedSet.store, SortedSet.mk.injEq, true_and]
    funext k
    by_cases hk : k = key
    · subst hk
      simpa [GoMap.set] using h.symm
    · simp [GoMap.set, hk]

/-! ## Absent names -/

/-- Claim C1: when `key` is not a name of the registry, each of the fifteen methods
`ZMembers`, `ZCard`, `ZCount`, `ZPeekMax`, `ZPopMax`, `ZPeekMin`, `ZPopMin`,
`ZRangeByScore`, `ZRangeByRank`, `ZRem`, `ZRemRangeByRank`, `ZRank`, `ZRevRank`, `ZScore`
and `ZExist` returns `ErrSortedSetNotFound` and the nil or zero value in every other
result position, whatever its other arguments are (and leaves the registry as it is). -/
theorem absent_name_not_found (ops : SkipListOps SL) (z : SortedSet SL) (key : String)
    (h : z.M key = none) :
    ZMembers ops z key = (none, some Error.ErrSortedSetNotFound) ∧
    ZCard ops z key = (0, some Error.ErrSortedSetNotFound) ∧
    (∀ start stop opts,
      ZCount ops z key start stop opts = (0, some Error.ErrSortedSetNotFound)) ∧
    ZPeekMax ops z key = (none, 0, some Error.ErrSortedSetNotFound) ∧
    ZPopMax ops z key = (z, none, 0, some Error.ErrSortedSetNotFound) ∧
    ZPeekMin ops z key = (none, 0, some Error.ErrSortedSetNotFound) ∧
    ZPopMin ops z key = (z, none, 0, some Error.ErrSortedSetNotFound) ∧
    (∀ start stop opts,
      ZRangeByScore ops z key start stop opts =
        (none, none, some Error.ErrSortedSetNotFound)) ∧
    (∀ start stop,
      ZRangeByRank ops z key start stop = (z, none, none, some Error.ErrSortedSetNotFound)) ∧
    (∀ value, ZRem ops z key value = (z, none, some Error.ErrSortedSetNotFound)) ∧
    (∀ start stop,
      ZRemRangeByRank ops z key start stop = (z, some Error.ErrSortedSetNotFound)) ∧
    (∀ value, ZRank ops z key value = (0, some Error.ErrSortedSetNotFound)) ∧
    (∀ value, ZRevRank ops z key value = (0, some Error.ErrSortedSetNotFound)) ∧
    (∀ value, ZScore ops z key value = (0, some Error.ErrSortedSetNotFound)) ∧
    (∀ value, ZExist ops z key value = (false, some Error.ErrSortedSetNotFound)) := by
  simp [ZMembers, ZCard, ZCount, ZPeekMax, ZPopMax, ZPeekMin, ZPopMin, ZRangeByScore,
    ZRangeByRank, ZRem, ZRemRangeByRank, ZRank, ZRevRank, ZScore, ZExist, h]

/-- The instance of C1 at the fresh registry and the name `"s"`. -/
theorem absent_name_not_found_witness :
    (NewSortedSet 0 : SortedSet SkipList).M "s" = none ∧
    ZCard (specOps getFnv32) (NewSortedSet 0) "s" = (0, some Error.ErrSortedSetNotFound) ∧
    ZPopMax (specOps getFnv32) (NewSortedSet 0) "s" =
      (NewSortedSet 0, none, 0, some Error.ErrSortedSetNotFound) :=
  ⟨rfl, (absent_name_not_found (specOps getFnv32) (NewSortedSet 0) "s" rfl).2.1,
    (absent_name_not_found (specOps getFnv32) (NewSortedSet 0) "s" rfl).2.2.2.2.1⟩

/-! ## Range queries -/

theorem fillRange_append (nodes : List SkipListNode) :
    ∀ (pre rest : List RecordPtr) (pre2 rest2 : List SCORE),
      rest.length = nodes.length → rest2.length = nodes.length → pre2.length = pre.length →
      fillRange pre.length nodes (pre ++ rest, pre2 ++ rest2) =
        (pre ++ nodes.map (fun n => n.record), pre2 ++ nodes.map (fun n => n.score)) := by
  induction nodes with
  | nil =>
    intro pre rest pre2 rest2 h1 h2 _
    have e1 : rest = [] := List.length_eq_zero.mp h1
    have e2 : rest2 = [] := List.length_eq_zero.mp h2
    simp [fillRange, e1, e2]
  | cons n t ih =>
    intro pre rest pre2 rest2 h1 h2 h3
    cases rest with
    | nil => simp at h1
    | cons r rest =>
      cases rest2 with
      | nil => simp at h2
      | cons r2 rest2 =>
        have s1 : (pre ++ r :: rest).set pre.length n.record = (pre ++ [n.record]) ++ rest := by
          simp [List.set_append]
        have s2 : (pre2 ++ r2 :: rest2).set pre.length n.score = (pre2 ++ [n.score]) ++ rest2 := by
          rw [← h3]
          simp [List.set_append]
        have hlen : pre.length + 1 = (pre ++ [n.record]).length := by simp
        simp only [fillRange, s1, s2]
        rw [hlen, ih (pre ++ [n.record]) rest (pre2 ++ [n.score]) rest2
          (by simpa using h1) (by simpa using h2) (by simp [h3])]
        simp

theorem rangeResult_eq (nodes : List SkipListNode) :
    rangeResult nodes = (nodes.map (fun n => n.record), nodes.map (fun n => n.score)) := by
  have h := fillRange_append nodes [] (List.replicate nodes.length none) []
    (List.replicate nodes.length 0) (by simp) (by simp) rfl
  simpa [rangeResult] using h

/-- Claim C8: for a present name, `ZRangeByScore` and `ZRangeByRank` return, with no error,
two slices whose common length is the number of nodes that the index's
`GetByScoreRange(start, end, opts)` (resp. `GetByRankRange(start, end, false)`) returns,
and at every position the record and the score of the node at that position. -/
theorem range_parallel (ops : SkipListOps SL) (z : SortedSet SL) (key : String) (sl : SL)
    (h : z.M key = some sl) :
    (∀ start stop opts, ∃ records scores,
      ZRangeByScore ops z key start stop opts = (some records, some scores, none) ∧
      records.length = (ops.GetByScoreRange sl start stop opts).length ∧
      scores.length = (ops.GetByScoreRange sl start stop opts).length ∧
      ∀ (i : Nat) (node : SkipListNode),
        (ops.GetByScoreRange sl start stop opts)[i]? = some node →
        records[i]? = some node.record ∧ scores[i]? = some node.score) ∧
    (∀ start stop, ∃ records scores,
      (ZRangeByRank ops z key start stop).2 = (some records, some scores, none) ∧
      records.length = (ops.GetByRankRange sl start stop false).2.length ∧
      scores.length = (ops.GetByRankRange sl start stop false).2.length ∧
      ∀ (i : Nat) (node : SkipListNode),
        (ops.GetByRankRange sl start stop false).2[i]? = some node →
        records[i]? = some node.record ∧ scores[i]? = some node.score) := by
  constructor
  · intro start stop opts
    refine ⟨(ops.GetByScoreRange sl start stop opts).map (fun n => n.record),
      (ops.GetByScoreRange sl start stop opts).map (fun n => n.score), ?_, ?_, ?_, ?_⟩
    · simp only [ZRangeByScore, h, rangeResult_eq]
    · simp
    · simp
    · intro i node hi
      simp [List.getElem?_map, hi]
  · intro start stop
    refine ⟨(ops.GetByRankRange sl start stop false).2.map (fun n => n.record),
      (ops.GetByRankRange sl start stop false).2.map (fun n => n.score), ?_, ?_, ?_, ?_⟩
    · simp only [ZRangeByRank, h, rangeResult_eq]
    · simp
    · simp
    · intro i node hi
      simp [List.getElem?_map, hi]

/-- The instance of C8 at the three-member set `"s"`, scores from 3 to 5. -/
theorem range_parallel_witness :
    demo.M "s" = some demoIndex ∧
    ∃ records scores,
      ZRangeByScore (specOps getFnv32) demo "s" 3 5 none = (some records, some scores, none) ∧
      records.length = 3 ∧ scores.length = 3 := by
  refine ⟨by decide, ?_⟩
  obtain ⟨records, scores, h1, h2, h3, _⟩ :=
    (range_parallel (specOps getFnv32) demo "s" demoIndex (by decide)).1 3 5 none
  exact ⟨records, scores, h1, h2, h3⟩

/-- Claim C9: `ZCount` fails exactly when `ZRangeByScore` fails on the same arguments and
state, both with `ErrSortedSetNotFound`; otherwise the integer it returns is the
length of the record slice and of the score slice that `ZRangeByScore` returns. -/
theorem count_matches_range (ops : SkipListOps SL) (z : SortedSet SL) (key : String)
    (start stop : SCORE) (opts : Option GetByScoreRangeOptions) :
    ((ZCount ops z key start stop opts).2 ≠ none ↔
      (ZRangeByScore ops z key start stop opts).2.2 ≠ none) ∧
    ((ZCount ops z key start stop opts).2 = none ∨
      ((ZCount ops z key start stop opts).2 = some Error.ErrSortedSetNotFound ∧
        (ZRangeByScore ops z key start stop opts).2.2 = some Error.ErrSortedSetNotFound)) ∧
    ((ZCount ops z key start stop opts).2 = none →
      ∃ records scores,
        ZRangeByScore ops z key start stop opts = (some records, some scores, none) ∧
        (ZCount ops z key start stop opts).1 = (records.length : Nat) ∧
        (ZCount ops z key start stop opts).1 = (scores.length : Nat)) := by
  cases h : z.M key with
  | none => simp [ZCount, ZRangeByScore, h]
  | some sl =>
    refine ⟨by simp [ZCount, ZRangeByScore, h], by simp [ZCount, h], ?_⟩
    intro _
    refine ⟨(ops.GetByScoreRange sl start stop opts).map (fun n => n.record),
      (ops.GetByScoreRange sl start stop opts).map (fun n => n.score), ?_, ?_, ?_⟩
    · simp only [ZRangeByScore, h, rangeResult_eq]
    · simp [ZCount, h]
    · simp [ZCount, h]

/-! ## Ranks -/

/-- Claim C4: for a present name and a member whose digest is computed without error, `ZRank`
(resp. `ZRevRank`) fails with `ErrSortedSetMemberNotExist` exactly when the index's
`FindRank` (resp. `FindRevRank`) of the digest is 0, and otherwise returns that rank
with no error; a rank returned without error is never 0. -/
theorem rank_member_not_exist (ops : SkipListOps SL) (z : SortedSet SL) (key : String)
    (sl : SL) (value : Bytes) (h : z.M key = some sl) (hd : (ops.getFnv32 value).2 = none) :
    ((ZRank ops z key value).2 = some Error.ErrSortedSetMemberNotExist ↔
      ops.FindRank sl (ops.getFnv32 value).1 = 0) ∧
    (ops.FindRank sl (ops.getFnv32 value).1 ≠ 0 →
      ZRank ops z key value = (ops.FindRank sl (ops.getFnv32 value).1, none)) ∧
    ((ZRank ops z key value).2 = none → (ZRank ops z key value).1 ≠ 0) ∧
    ((ZRevRank ops z key value).2 = some Error.ErrSortedSetMemberNotExist ↔
      ops.FindRevRank sl (ops.getFnv32 value).1 = 0) ∧
    (ops.FindRevRank sl (ops.getFnv32 value).1 ≠ 0 →
      ZRevRank ops z key value = (ops.FindRevRank sl (ops.getFnv32 value).1, none)) ∧
    ((ZRevRank ops z key value).2 = none → (ZRevRank ops z key value).1 ≠ 0) := by
  have e1 : ZRank ops z key value = rankResult (ops.FindRank sl (ops.getFnv32 value).1) := by
    simp [ZRank, h, hd]
  have e2 : ZRevRank ops z key value =
      rankResult (ops.FindRevRank sl (ops.getFnv32 value).1) := by
    simp [ZRevRank, h, hd]
  rw [e1, e2]
  refine ⟨?_, ?_, ?_, ?_, ?_, ?_⟩ <;>
    first
    | (by_cases h0 : ops.FindRank sl (ops.getFnv32 value).1 = 0 <;> simp [rankResult, h0]; done)
    | (by_cases h0 : ops.FindRevRank sl (ops.getFnv32 value).1 = 0 <;> simp [rankResult, h0])

/-- The instance of C4 at the three-member set `"s"` and the member `a`, whose rank is 3 and
whose reverse rank is 1. -/
theorem rank_member_not_exist_witness :
    demo.M "s" = some demoIndex ∧ (getFnv32 [97]).2 = none ∧
    ZRank (specOps getFnv32) demo "s" [97] = (3, none) ∧
    ZRevRank (specOps getFnv32) demo "s" [97] = (1, none) :=
  ⟨by decide, rfl,
    (rank_member_not_exist (specOps getFnv32) demo "s" demoIndex [97] (by decide) rfl).2.1
      (by decide),
    (rank_member_not_exist (specOps getFnv32) demo "s" demoIndex [97] (by decide) rfl).2.2.2.2.1
      (by decide)⟩

/-! ## The set of names and the frame of a call -/

theorem exec_db (ops : SkipListOps SL) (z : SortedSet SL) (op : Op) :
    (exec ops z op).1.db = z.db := by
  cases op <;>
    simp only [exec, ZAdd, ZPopMax, ZPopMin, ZRangeByRank, ZRem, ZRemRangeByRank,
      getZRemRangeByRankNodes] <;>
    (repeat' split) <;> rfl

theorem exec_M_other (ops : SkipListOps SL) (z : SortedSet SL) (op : Op) (k : String)
    (h : op.key ≠ k) : (exec ops z op).1.M k = z.M k := by
  have hk : ∀ key : String, key ≠ k → ∀ (y : SortedSet SL) (sl : SL),
      (y.store key sl).M k = y.M k :=
    fun key hne y sl => SortedSet.store_M_other y key k sl (Ne.symm hne)
  cases op <;> simp only [Op.key] at h <;>
    simp only [exec, ZAdd, ZPopMax, ZPopMin, ZRangeByRank, ZRem, ZRemRangeByRank,
      getZRemRangeByRankNodes] <;>
    (repeat' split) <;> simp only [hk _ h]

theorem exec_isSome (ops : SkipListOps SL) (z : SortedSet SL) (op : Op) (k : String) :
    ((exec ops z op).1.M k).isSome = ((z.M k).isSome || op.addsTo k) := by
  by_cases h : op.key = k
  · subst h
    cases op <;>
      simp only [exec, ZAdd, ZPopMax, ZPopMin, ZRangeByRank, ZRem, ZRemRangeByRank,
        getZRemRangeByRankNodes, Op.key, Op.addsTo] <;>
      (repeat' split) <;>
      simp_all [SortedSet.store_M_same]
  · rw [exec_M_other ops z op k h]
    cases op <;> simp_all [Op.key, Op.addsTo]

theorem run_isSome (ops : SkipListOps SL) (calls : List Op) :
    ∀ (z : SortedSet SL) (k : String),
      ((run ops z calls).M k).isSome = ((z.M k).isSome || calls.any (Op.addsTo k)) := by
  induction calls with
  | nil => intro z k; simp [run]
  | cons op rest ih =>
    intro z k
    have hrun : run ops z (op :: rest) = run ops (exec ops z op).1 rest := rfl
    rw [hrun, ih, exec_isSome, List.any_cons, Bool.or_assoc]

/-- Claim C2: after any finite sequence of registry calls on the registry made by
`NewSortedSet`, a name is present in `M` exactly when some `ZAdd` of the sequence
addressed it; `ZAdd` always leaves its name present; and no call removes a name that
is present. -/
theorem name_present_iff_added (ops : SkipListOps SL) (key : String) :
    (∀ (db : DB) (calls : List Op),
      ((run ops (NewSortedSet db) calls).M key).isSome = calls.any (Op.addsTo key)) ∧
    (∀ (z : SortedSet SL) (score : SCORE) (value : Bytes) (record : RecordPtr),
      ((ZAdd ops z key score value record).1.M key).isSome = true) ∧
    (∀ (z : SortedSet SL) (op : Op),
      (z.M key).isSome = true → ((exec ops z op).1.M key).isSome = true) := by
  refine ⟨?_, ?_, ?_⟩
  · intro db calls
    rw [run_isSome]
    simp [NewSortedSet, GoMap.empty]
  · intro z score value record
    simp [ZAdd, SortedSet.store_M_same]
  · intro z op hz
    rw [exec_isSome, hz]
    rfl

/-- Claim C10: a call addressed at `op.key` leaves every other name `k` as it was: `k` is
bound afterwards exactly as before (absent, or the same index state), and every call
addressed at `k` returns the same values, and leaves `k` bound to the same state,
whether it runs before or after the call on `op.key`. -/
theorem isolation (ops : SkipListOps SL) (z : SortedSet SL) (op : Op) (k : String)
    (h : op.key ≠ k) :
    (exec ops z op).1.M k = z.M k ∧
    ∀ q : Op, q.key = k →
      (exec ops (exec ops z op).1 q).2 = (exec ops z q).2 ∧
      (exec ops (exec ops z op).1 q).1.M k = (exec ops z q).1.M k := by
  have hM := exec_M_other ops z op k h
  have hdb := exec_db ops z op
  refine ⟨hM, ?_⟩
  intro q hq
  subst hq
  generalize (exec ops z op).1 = y at hM hdb
  cases q <;>
    simp only [Op.key] at hM <;>
    simp only [exec, ZAdd, ZMembers, ZCard, ZCount, ZPeekMax, ZPopMax, ZPeekMin, ZPopMin,
      ZRangeByScore, ZRangeByRank, ZRem, ZRemRangeByRank, getZRemRangeByRankNodes, ZRank,
      ZRevRank, ZScore, ZExist, Op.key, hM, hdb] <;>
    (repeat' split) <;>
    simp_all [SortedSet.store_M_same]

/-- The instance of C10 at the three-member set `"s"` and an insertion into `"t"`. -/
theorem isolation_witness :
    Op.key (.ZAdd "t" 1 [100] none) ≠ "s" ∧
    (exec (specOps getFnv32) demo (.ZAdd "t" 1 [100] none)).1.M "s" = demo.M "s" ∧
    (exec (specOps getFnv32) (exec (specOps getFnv32) demo (.ZAdd "t" 1 [100] none)).1
      (.ZCard "s")).2 = (exec (specOps getFnv32) demo (.ZCard "s")).2 :=
  ⟨by decide,
    (isolation (specOps getFnv32) demo (.ZAdd "t" 1 [100] none) "s" (by decide)).1,
    ((isolation (specOps getFnv32) demo (.ZAdd "t" 1 [100] none) "s" (by decide)).2
      (.ZCard "s") rfl).1⟩

/-! ## Members -/

theorem collectMembers_append (l : List (Nat × SkipListNode)) (p : Nat × SkipListNode) :
    collectMembers (l ++ [p]) = (collectMembers l).set p.2.record p.2.score := by
  simp [collectMembers, List.foldl_append]

theorem collectMembers_sound (l : List (Nat × SkipListNode)) :
    ∀ (r : RecordPtr) (s : SCORE), collectMembers l r = some s →
      ∃ p ∈ l, p.2.record = r ∧ p.2.score = s := by
  induction l using List.reverseRecOn with
  | nil => intro r s h; simp [collectMembers, GoMap.empty] at h
  | append_singleton l p ih =>
    intro r s h
    rw [collectMembers_append] at h
    by_cases hr : r = p.2.record
    · subst hr
      rw [GoMap.set_same] at h
      exact ⟨p, by simp, rfl, by simpa using h⟩
    · rw [GoMap.set_other _ _ _ _ hr] at h
      obtain ⟨q, hq, h1, h2⟩ := ih r s h
      exact ⟨q, by simp [hq], h1, h2⟩

theorem collectMembers_keys (l : List (Nat × SkipListNode)) :
    ∀ p ∈ l, (collectMembers l p.2.record).isSome = true := by
  induction l using List.reverseRecOn with
  | nil => intro p hp; simp at hp
  | append_singleton l x ih =>
    intro p hp
    rw [collectMembers_append]
    by_cases hr : p.2.record = x.2.record
    · rw [hr, GoMap.set_same]; rfl
    · rw [GoMap.set_other _ _ _ _ hr]
      rcases List.mem_append.mp hp with hl | hx
      · exact ih p hl
      · simp at hx
        exact absurd (by rw [hx]) hr

theorem collectMembers_agree (l : List (Nat × SkipListNode)) :
    ∀ p ∈ l, (∀ q ∈ l, q.2.record = p.2.record → q.2.score = p.2.score) →
      collectMembers l p.2.record = some p.2.score := by
  induction l using List.reverseRecOn with
  | nil => intro p hp; simp at hp
  | append_singleton l x ih =>
    intro p hp hall
    rw [collectMembers_append]
    by_cases hr : p.2.record = x.2.record
    · rw [hr, GoMap.set_same, hall x (by simp) hr.symm]
    · rw [GoMap.set_other _ _ _ _ hr]
      rcases List.mem_append.mp hp with hl | hx
      · exact ih p hl (fun q hq => hall q (by simp [hq]))
      · simp at hx
        exact absurd (by rw [hx]) hr

/-- Claim C6, as amended: for a present name `ZMembers` returns, with no error, a map whose
keys are exactly the records of the entries of the index's lookup table, each key
sent to the score of an entry carrying that record; the record of an entry is sent to
that entry's own score whenever every entry carrying the same record has the same
score, in particular when the records of the entries are pairwise distinct. -/
theorem members_of_present (ops : SkipListOps SL) (z : SortedSet SL) (key : String) (sl : SL)
    (h : z.M key = some sl) :
    ∃ members : GoMap RecordPtr SCORE,
      ZMembers ops z key = (some members, none) ∧
      (∀ (r : RecordPtr) (s : SCORE), members r = some s →
        ∃ p ∈ ops.dict sl, p.2.record = r ∧ p.2.score = s) ∧
      (∀ p ∈ ops.dict sl, (members p.2.record).isSome = true) ∧
      (∀ p ∈ ops.dict sl,
        (∀ q ∈ ops.dict sl, q.2.record = p.2.record → q.2.score = p.2.score) →
          members p.2.record = some p.2.score) ∧
      (((ops.dict sl).map (fun p => p.2.record)).Nodup →
        ∀ p ∈ ops.dict sl, members p.2.record = some p.2.score) := by
  refine ⟨collectMembers (ops.dict sl), by simp [ZMembers, h], collectMembers_sound _,
    collectMembers_keys _, collectMembers_agree _, ?_⟩
  intro hnd p hp
  apply collectMembers_agree _ p hp
  intro q hq hqp
  have : q = p := List.inj_on_of_nodup_map hnd hq hp hqp
  rw [this]

/-- The instance of C6 (amended) at the three-member set `"s"`, whose records are distinct. -/
theorem members_of_present_witness :
    demo.M "s" = some demoIndex ∧
    ∃ members : GoMap RecordPtr SCORE,
      ZMembers (specOps getFnv32) demo "s" = (some members, none) ∧
      ∀ p ∈ demoIndex.dict, members p.2.record = some p.2.score := by
  refine ⟨by decide, ?_⟩
  obtain ⟨m, h1, _, _, _, h5⟩ :=
    members_of_present (specOps getFnv32) demo "s" demoIndex (by decide)
  exact ⟨m, h1, h5 (by decide)⟩

theorem perm_pair {α : Type} (a b : α) (l : List α) (h : l.Perm [a, b]) :
    l = [a, b] ∨ l = [b, a] := by
  have hlen := h.length_eq
  match l, hlen with
  | [x, y], _ =>
    have hx : x = a ∨ x = b := by simpa using h.mem_iff.mp (List.mem_cons_self x [y])
    rcases hx with rfl | rfl
    · left
      have := (List.perm_cons x).mp h
      simpa using this
    · right
      have h2 : [x, y].Perm [x, a] := h.trans (List.Perm.swap x a [])
      have := (List.perm_cons x).mp h2
      simpa using this

/-- Claim C6 fails as stated: after `ZAdd("s", 1, "a", r)` and `ZAdd("s", 2, "b", r)` with one
record handle `r`, the lookup table of `"s"` has two entries, and in whichever order
the entries are iterated the map built by `ZMembers` sends `r` to a single score, so one
entry's record is not sent to that entry's score. -/
theorem members_shared_record_counterexample :
    shared.M "s" = some sharedIndex ∧
    (ZMembers (specOps getFnv32) shared "s").2 = none ∧
    (∃ members, (ZMembers (specOps getFnv32) shared "s").1 = some members ∧
      ¬ ∀ p ∈ (specOps getFnv32).dict sharedIndex, members p.2.record = some p.2.score) ∧
    (∀ l : List (Nat × SkipListNode), l.Perm ((specOps getFnv32).dict sharedIndex) →
      ¬ ∀ p ∈ l, collectMembers l p.2.record = some p.2.score) := by
  refine ⟨by decide, by decide, ⟨collectMembers sharedIndex.dict, rfl, ?_⟩, ?_⟩
  · intro hall
    have := hall (3876335077, ⟨3876335077, [98], 2, some 7⟩) (by decide)
    revert this
    decide
  · intro l hl hall
    rcases perm_pair _ _ l hl with rfl | rfl
    · have := hall (3876335077, ⟨3876335077, [98], 2, some 7⟩) (by decide)
      revert this
      decide
    · have := hall (3826002220, ⟨3826002220, [97], 1, some 7⟩) (by decide)
      revert this
      decide

/-! ## Calls that return an error -/

theorem lookup_filter_ne {α : Type} (l : List (Nat × α)) (hash k : Nat) :
    (l.filter (fun p => p.1 != hash)).lookup k = if k = hash then none else l.lookup k := by
  induction l with
  | nil => simp
  | cons p rest ih =>
    obtain ⟨a, b⟩ := p
    by_cases ha : a = hash
    · have hf : List.filter (fun p : Nat × α => p.1 != hash) ((a, b) :: rest) =
          List.filter (fun p : Nat × α => p.1 != hash) rest := by
        simp [List.filter_cons, ha]
      rw [hf, ih]
      by_cases hk : k = hash
      · simp [hk]
      · have hb : (k == a) = false := by simpa [ha] using hk
        simp [hk, List.lookup_cons, hb]
    · have hf : List.filter (fun p : Nat × α => p.1 != hash) ((a, b) :: rest) =
          (a, b) :: List.filter (fun p : Nat × α => p.1 != hash) rest := by
        simp [List.filter_cons, ha]
      rw [hf, List.lookup_cons, List.lookup_cons, ih]
      by_cases hka : k = a
      · have hb : (k == a) = true := by simpa using hka
        have hne : k ≠ hash := by rw [hka]; exact ha
        simp [hb, hne]
      · have hb : (k == a) = false := by simpa using hka
        simp [hb]

theorem SkipList.delete_absent (s : SkipList) (hash : Nat) (h : s.dict.lookup hash = none) :
    s.delete hash = (s, none) := by
  simp [SkipList.delete, h]

theorem SkipList.delete_present (s : SkipList) (hash : Nat) (n : SkipListNode)
    (h : s.dict.lookup hash = some n) :
    s.delete hash =
      ({ nodes := s.nodes.erase n, dict := s.dict.filter (fun p => p.1 != hash),
         length := s.length - 1 }, some n) := by
  simp [SkipList.delete, h]

/-- Claim C5: over the modelled index, when `ZRem(k, v)` succeeds on a present name it returns
the record of the node that the lookup table held for the digest of `v` and that
`Delete` removed; afterwards `ZExist(k, v)` is false, `ZCard(k)` is one less than
before, and a second `ZRem(k, v)` fails with `ErrSortedSetMemberNotExist`. -/
theorem zrem_correct (fnv : Bytes → Nat × Option Error) (z : SortedSet SkipList)
    (k : String) (v : Bytes) (sl : SkipList) (hk : z.M k = some sl)
    (hok : (ZRem (specOps fnv) z k v).2.2 = none) :
    (∃ n, sl.findByDigest (fnv v).1 = some n ∧ (sl.delete (fnv v).1).2 = some n ∧
      (ZRem (specOps fnv) z k v).2.1 = n.record) ∧
    ZExist (specOps fnv) (ZRem (specOps fnv) z k v).1 k v = (false, none) ∧
    ZCard (specOps fnv) (ZRem (specOps fnv) z k v).1 k =
      ((ZCard (specOps fnv) z k).1 - 1, none) ∧
    ZRem (specOps fnv) (ZRem (specOps fnv) z k v).1 k v =
      ((ZRem (specOps fnv) z k v).1, none, some Error.ErrSortedSetMemberNotExist) := by
  cases hd : (fnv v).2 with
  | some e => simp [ZRem, specOps, hk, hd] at hok
  | none =>
    cases hl : sl.dict.lookup (fnv v).1 with
    | none => simp [ZRem, specOps, hk, hd, SkipList.delete_absent sl _ hl] at hok
    | some n =>
      have hdel := SkipList.delete_present sl _ n hl
      have hz : ZRem (specOps fnv) z k v =
          (z.store k (sl.delete (fnv v).1).1, n.record, none) := by
        simp [ZRem, specOps, hk, hd, hdel]
      have hgone : (sl.delete (fnv v).1).1.dict.lookup (fnv v).1 = none := by
        simp [hdel, lookup_filter_ne]
      have hagain := SkipList.delete_absent _ _ hgone
      have hcard : ZCard (specOps fnv) z k = (sl.length, none) := by
        simp [ZCard, specOps, hk]
      rw [hz, hcard]
      refine ⟨⟨n, hl, by simp [hdel], rfl⟩, ?_, ?_, ?_⟩
      · have hd2 : ((specOps fnv).getFnv32 v).2 = none := hd
        simp only [ZExist, SortedSet.store_M_same, hd2]
        simp [specOps, hgone]
      · simp only [ZCard, SortedSet.store_M_same]
        simp [specOps, hdel]
      · have hd2 : ((specOps fnv).getFnv32 v).2 = none := hd
        have hr : (specOps fnv).Remove (sl.delete (fnv v).1).1 ((specOps fnv).getFnv32 v).1 =
            ((sl.delete (fnv v).1).1, none) := hagain
        simp only [ZRem, SortedSet.store_M_same, hd2, hr]
        rw [SortedSet.store_self _ _ _ (SortedSet.store_M_same _ _ _)]

/-- The instance of C5 at the three-member set `"s"` and its member `b`. -/
theorem zrem_correct_witness :
    demo.M "s" = some demoIndex ∧
    (ZRem (specOps getFnv32) demo "s" [98]).2.2 = none ∧
    ZCard (specOps getFnv32) (ZRem (specOps getFnv32) demo "s" [98]).1 "s" = (3 - 1, none) ∧
    ZExist (specOps getFnv32) (ZRem (specOps getFnv32) demo "s" [98]).1 "s" [98] =
      (false, none) :=
  ⟨by decide, by decide,
    (zrem_correct getFnv32 demo "s" [98] demoIndex (by decide) (by decide)).2.2.1,
    (zrem_correct getFnv32 demo "s" [98] demoIndex (by decide) (by decide)).2.1⟩

/-! ## Consistency of the modelled index -/

theorem SkipList.mem_insertOrdered (n m : SkipListNode) (l : List SkipListNode) :
    m ∈ SkipList.insertOrdered n l ↔ m = n ∨ m ∈ l := by
  induction l with
  | nil => simp [SkipList.insertOrdered]
  | cons x rest ih =>
    unfold SkipList.insertOrdered
    split
    · simp only [List.mem_cons, ih]
      tauto
    · simp only [List.mem_cons]

theorem SkipList.length_insertOrdered (n : SkipListNode) (l : List SkipListNode) :
    (SkipList.insertOrdered n l).length = l.length + 1 := by
  induction l with
  | nil => simp [SkipList.insertOrdered]
  | cons x rest ih =>
    unfold SkipList.insertOrdered
    split
    · simp [ih]
    · simp

theorem SkipList.Inv_insertNode (s : SkipList) (n : SkipListNode) (h : s.Inv) :
    (s.insertNode n).Inv := by
  obtain ⟨hlen, hdict⟩ := h
  refine ⟨?_, ?_⟩
  · simp [SkipList.insertNode, SkipList.length_insertOrdered, hlen]
  · intro k m hm
    simp only [SkipList.insertNode, List.lookup_cons] at hm
    simp only [SkipList.insertNode, SkipList.mem_insertOrdered]
    by_cases hk : k = n.hash
    · have hb : (k == n.hash) = true := by simpa using hk
      simp only [hb, Option.some.injEq] at hm
      subst hm
      exact ⟨Or.inl rfl, hk.symm⟩
    · have hb : (k == n.hash) = false := by simpa using hk
      simp only [hb] at hm
      exact ⟨Or.inr (hdict k m hm).1, (hdict k m hm).2⟩

theorem SkipList.Inv_delete (s : SkipList) (hash : Nat) (h : s.Inv) :
    (s.delete hash).1.Inv := by
  cases hl : s.dict.lookup hash with
  | none => rw [SkipList.delete_absent s hash hl]; exact h
  | some n =>
    rw [SkipList.delete_present s hash n hl]
    obtain ⟨hlen, hdict⟩ := h
    obtain ⟨hmem, hhash⟩ := hdict hash n hl
    refine ⟨?_, ?_⟩
    · have hpos : 0 < s.nodes.length := List.length_pos_of_mem hmem
      simp only [List.length_erase_of_mem hmem, hlen]
      omega
    · intro k m hm
      simp only [lookup_filter_ne] at hm
      by_cases hk : k = hash
      · simp [hk] at hm
      · simp only [hk, if_false] at hm
        obtain ⟨hm1, hm2⟩ := hdict k m hm
        have hne : m ≠ n := by
          intro e
          rw [e, hhash] at hm2
          exact hk hm2.symm
        exact ⟨(List.mem_erase_of_ne hne).mpr hm1, hm2⟩

theorem SkipList.Inv_put (fnv : Bytes → Nat × Option Error) (s : SkipList) (score : SCORE)
    (value : Bytes) (record : RecordPtr) (h : s.Inv) : (s.put fnv score value record).Inv :=
  SkipList.Inv_insertNode _ _ (SkipList.Inv_delete s _ h)

theorem SkipList.Inv_popMax (s : SkipList) (h : s.Inv) : s.popMax.1.Inv := by
  unfold SkipList.popMax
  split
  · exact h
  · exact SkipList.Inv_delete s _ h

theorem SkipList.Inv_popMin (s : SkipList) (h : s.Inv) : s.popMin.1.Inv := by
  unfold SkipList.popMin
  split
  · exact h
  · exact SkipList.Inv_delete s _ h

theorem SkipList.Inv_foldl_delete (hit : List SkipListNode) :
    ∀ s : SkipList, s.Inv → (hit.foldl (fun t n => (t.delete n.hash).1) s).Inv := by
  induction hit with
  | nil => intro s h; exact h
  | cons n rest ih =>
    intro s h
    exact ih _ (SkipList.Inv_delete s _ h)

theorem SkipList.Inv_getByRankRange (s : SkipList) (start stop : Int) (remove : Bool)
    (h : s.Inv) : (s.getByRankRange start stop remove).1.Inv := by
  unfold SkipList.getByRankRange
  cases remove with
  | false => exact h
  | true => exact SkipList.Inv_foldl_delete _ s h

theorem SortedSet.Inv_store (z : SortedSet SkipList) (key : String) (sl : SkipList)
    (hz : z.Inv) (hs : sl.Inv) : (z.store key sl).Inv := by
  intro k t ht
  by_cases hk : k = key
  · subst hk
    rw [SortedSet.store_M_same] at ht
    cases ht
    exact hs
  · rw [SortedSet.store_M_other _ _ _ _ hk] at ht
    exact hz k t ht

theorem exec_Inv (fnv : Bytes → Nat × Option Error) (z : SortedSet SkipList) (op : Op)
    (hz : z.Inv) : (exec (specOps fnv) z op).1.Inv := by
  have hnew : ({ nodes := [], dict := [], length := 0 } : SkipList).Inv :=
    ⟨rfl, fun k n hn => by simp at hn⟩
  cases op with
  | ZAdd key score value record =>
    cases h : z.M key with
    | none =>
      simp only [exec, ZAdd, h]
      exact SortedSet.Inv_store _ _ _ (SortedSet.Inv_store _ _ _ hz hnew)
        (SkipList.Inv_put fnv _ _ _ _ hnew)
    | some sl =>
      simp only [exec, ZAdd, h]
      exact SortedSet.Inv_store _ _ _ hz (SkipList.Inv_put fnv _ _ _ _ (hz key sl h))
  | ZPopMax key =>
    cases h : z.M key with
    | none => simpa only [exec, ZPopMax, h] using hz
    | some sl =>
      simp only [exec, ZPopMax, h]
      exact SortedSet.Inv_store _ _ _ hz (SkipList.Inv_popMax sl (hz key sl h))
  | ZPopMin key =>
    cases h : z.M key with
    | none => simpa only [exec, ZPopMin, h] using hz
    | some sl =>
      simp only [exec, ZPopMin, h]
      exact SortedSet.Inv_store _ _ _ hz (SkipList.Inv_popMin sl (hz key sl h))
  | ZRangeByRank key start stop =>
    cases h : z.M key with
    | none => simpa only [exec, ZRangeByRank, h] using hz
    | some sl =>
      simp only [exec, ZRangeByRank, h]
      exact SortedSet.Inv_store _ _ _ hz (SkipList.Inv_getByRankRange sl _ _ _ (hz key sl h))
  | ZRemRangeByRank key start stop =>
    cases h : z.M key with
    | none => simpa only [exec, ZRemRangeByRank, h] using hz
    | some sl =>
      simp only [exec, ZRemRangeByRank, h]
      exact SortedSet.Inv_store _ _ _ hz (SkipList.Inv_getByRankRange sl _ _ _ (hz key sl h))
  | getZRemRangeByRankNodes key start stop =>
    cases h : z.M key with
    | none => simpa only [exec, getZRemRangeByRankNodes, h] using hz
    | some sl =>
      simp only [exec, getZRemRangeByRankNodes, h]
      exact SortedSet.Inv_store _ _ _ hz (SkipList.Inv_getByRankRange sl _ _ _ (hz key sl h))
  | ZRem key value =>
    cases h : z.M key with
    | none => simpa only [exec, ZRem, h] using hz
    | some sl =>
      have hs := SortedSet.Inv_store z key _ hz (SkipList.Inv_delete sl (fnv value).1 (hz key sl h))
      simp only [exec, ZRem, h]
      split
      · exact hz
      · split
        · exact hs
        · exact hs
  | _ => exact hz

theorem Reachable.Inv (fnv : Bytes → Nat × Option Error) (z : SortedSet SkipList)
    (h : Reachable fnv z) : z.Inv := by
  obtain ⟨db, calls, rfl⟩ := h
  have key : ∀ (calls : List Op) (y : SortedSet SkipList), y.Inv →
      (run (specOps fnv) y calls).Inv := by
    intro calls
    induction calls with
    | nil => intro y hy; exact hy
    | cons op rest ih => intro y hy; exact ih _ (exec_Inv fnv y op hy)
  apply key
  intro k sl hk
  simp [NewSortedSet, GoMap.empty] at hk

/-! ## Peek and pop on a present name -/

theorem SkipList.Inv.length_eq_zero_iff (s : SkipList) (h : s.Inv) :
    s.length = 0 ↔ s.nodes = [] := by
  rw [h.1]
  constructor
  · intro e
    exact List.length_eq_zero.mp (by exact_mod_cast e)
  · intro e
    simp [e]

theorem SkipList.popMax_snd (s : SkipList) : s.popMax.2 = s.peekMax := by
  unfold SkipList.popMax
  split <;> simp_all

theorem SkipList.popMin_snd (s : SkipList) : s.popMin.2 = s.peekMin := by
  unfold SkipList.popMin
  split <;> simp_all

/-- Claim C3: over the modelled index, for every reachable registry and every present name:
when the count of the addressed index is 0 each of `ZPeekMax`, `ZPeekMin`, `ZPopMax`,
`ZPopMin` fails with `ErrSortedSetIsEmpty`; otherwise each returns, with no error, the
record and the score of the node that the index's `PeekMax` / `PeekMin` / `PopMax` /
`PopMin` yields; in neither case is the error `ErrSortedSetNotFound`. -/
theorem peek_pop_present (fnv : Bytes → Nat × Option Error) (z : SortedSet SkipList)
    (key : String) (sl : SkipList) (hz : Reachable fnv z) (h : z.M key = some sl) :
    (sl.length = 0 →
      ZPeekMax (specOps fnv) z key = (none, 0, some Error.ErrSortedSetIsEmpty) ∧
      ZPeekMin (specOps fnv) z key = (none, 0, some Error.ErrSortedSetIsEmpty) ∧
      (ZPopMax (specOps fnv) z key).2 = (none, 0, some Error.ErrSortedSetIsEmpty) ∧
      (ZPopMin (specOps fnv) z key).2 = (none, 0, some Error.ErrSortedSetIsEmpty)) ∧
    (sl.length ≠ 0 →
      (∃ n, (specOps fnv).PeekMax sl = some n ∧
        ZPeekMax (specOps fnv) z key = (n.record, n.score, none)) ∧
      (∃ n, (specOps fnv).PeekMin sl = some n ∧
        ZPeekMin (specOps fnv) z key = (n.record, n.score, none)) ∧
      (∃ n, ((specOps fnv).PopMax sl).2 = some n ∧
        (ZPopMax (specOps fnv) z key).2 = (n.record, n.score, none)) ∧
      (∃ n, ((specOps fnv).PopMin sl).2 = some n ∧
        (ZPopMin (specOps fnv) z key).2 = (n.record, n.score, none))) ∧
    ((ZPeekMax (specOps fnv) z key).2.2 ≠ some Error.ErrSortedSetNotFound ∧
      (ZPeekMin (specOps fnv) z key).2.2 ≠ some Error.ErrSortedSetNotFound ∧
      (ZPopMax (specOps fnv) z key).2.2.2 ≠ some Error.ErrSortedSetNotFound ∧
      (ZPopMin (specOps fnv) z key).2.2.2 ≠ some Error.ErrSortedSetNotFound) := by
  have hinv : sl.Inv := Reachable.Inv fnv z hz key sl h
  have hzero := SkipList.Inv.length_eq_zero_iff sl hinv
  have e1 : ZPeekMax (specOps fnv) z key = nodeResult sl.peekMax := by
    simp [ZPeekMax, h, specOps]
  have e2 : ZPeekMin (specOps fnv) z key = nodeResult sl.peekMin := by
    simp [ZPeekMin, h, specOps]
  have e3 : (ZPopMax (specOps fnv) z key).2 = nodeResult sl.peekMax := by
    simp [ZPopMax, h, specOps, SkipList.popMax_snd]
  have e4 : (ZPopMin (specOps fnv) z key).2 = nodeResult sl.peekMin := by
    simp [ZPopMin, h, specOps, SkipList.popMin_snd]
  have p3 : ((specOps fnv).PopMax sl).2 = sl.peekMax := SkipList.popMax_snd sl
  have p4 : ((specOps fnv).PopMin sl).2 = sl.peekMin := SkipList.popMin_snd sl
  have p1 : (specOps fnv).PeekMax sl = sl.peekMax := rfl
  have p2 : (specOps fnv).PeekMin sl = sl.peekMin := rfl
  rw [e1, e2, e3, e4, p1, p2, p3, p4]
  refine ⟨?_, ?_, ?_⟩
  · intro h0
    have hn := hzero.mp h0
    simp [SkipList.peekMax, SkipList.peekMin, hn, nodeResult]
  · intro h0
    have hn : sl.nodes ≠ [] := fun e => h0 (hzero.mpr e)
    have hmax : ∃ n, sl.peekMax = some n := by
      cases hp : sl.peekMax with
      | none => exact absurd (List.getLast?_eq_none_iff.mp hp) hn
      | some n => exact ⟨n, rfl⟩
    have hmin : ∃ n, sl.peekMin = some n := by
      cases hp : sl.peekMin with
      | none => exact absurd (List.head?_eq_none_iff.mp hp) hn
      | some n => exact ⟨n, rfl⟩
    obtain ⟨a, ha⟩ := hmax
    obtain ⟨b, hb⟩ := hmin
    simp [ha, hb, nodeResult]
  · refine ⟨?_, ?_, ?_, ?_⟩ <;>
      first
      | (cases sl.peekMax <;> simp [nodeResult]; done)
      | (cases sl.peekMin <;> simp [nodeResult])

/-- The instance of C3 at the three-member set `"s"`: its maximum is `a` (record 1, score 5)
and its minimum is `c` (record 3, score 3). -/
theorem peek_pop_present_witness :
    Reachable getFnv32 demo ∧ demo.M "s" = some demoIndex ∧ demoIndex.length ≠ 0 ∧
    (∃ n, (specOps getFnv32).PeekMax demoIndex = some n ∧
      ZPeekMax (specOps getFnv32) demo "s" = (n.record, n.score, none)) ∧
    ZPeekMax (specOps getFnv32) demo "s" = (some 1, 5, none) ∧
    ZPeekMin (specOps getFnv32) demo "s" = (some 3, 3, none) :=
  ⟨⟨0, _, rfl⟩, by decide, by decide,
    ((peek_pop_present getFnv32 demo "s" demoIndex ⟨0, _, rfl⟩ (by decide)).2.1
      (by decide)).1,
    by decide, by decide⟩

end Nutsdb
